import Mathlib

/-!
# Verification of the DeepSeek chat relay (server tee + SSE reassembly) and consumer

Shallow embedding of the stream-relay worker (`src/index.ts`, route `routeChat`
with its `streamOut` pull handler) and of the browser stream consumer
(`onSend`).  Strings are modelled as `List Char`; raw network chunks as
`List Nat` (byte values); the D1 persistence writes, the upstream call and the
stream output are modelled as explicit effect traces.
-/

/-- JavaScript `\s` whitespace class restricted to the ASCII range used by
`String.prototype.trim` / the regex `\s` on the payloads at hand. -/
def jsWs (c : Char) : Bool :=
  c = ' ' || c = '\t' || c = '\n' || c = '\r' || c = '\x0b' || c = '\x0c'

/-- Model of JavaScript `String.prototype.trim`: strip whitespace from both
ends. -/
def jsTrim (l : List Char) : List Char :=
  ((l.dropWhile jsWs).reverse.dropWhile jsWs).reverse

/-- `true` iff the text contains the SSE blank-line delimiter `"\n\n"` as a
(contiguous) substring. -/
def hasNLNL : List Char → Bool
  | [] => false
  | [_] => false
  | c1 :: c2 :: rest => (decide (c1 = '\n' ∧ c2 = '\n')) || hasNLNL (c2 :: rest)

/-- Model of `buffer.split("\n\n")` followed by `events.pop() || ""`:
returns the list of complete SSE event blocks and the trailing (possibly
empty) carry-over fragment.  The scan is left-to-right, greedy, on
non-overlapping occurrences of `"\n\n"`, exactly as JS `String.split`. -/
def sseSplit : List Char → List (List Char) × List Char
  | [] => ([], [])
  | [c] => ([], [c])
  | c1 :: c2 :: rest =>
    if c1 = '\n' ∧ c2 = '\n' then
      let p := sseSplit rest
      ([] :: p.1, p.2)
    else
      let p := sseSplit (c2 :: rest)
      match p.1 with
      | [] => ([], c1 :: p.2)
      | e :: es => ((c1 :: e) :: es, p.2)

/-- Model of `evt.split("\n")` (single-character separator split, JS
semantics: always at least one segment). -/
def splitNL : List Char → List (List Char)
  | [] => [[]]
  | c :: rest =>
    let r := splitNL rest
    if c = '\n' then [] :: r
    else
      match r with
      | e :: es => (c :: e) :: es
      | [] => [[c]]

/-- Generic chunked SSE processing state: the unconsumed partial-frame
carry-over `buffer` and an accumulator `acc` folded over every complete
event block (the Delta Accumulator of the spec). -/
structure SSEProc (σ : Type) where
  buffer : List Char
  acc : σ
deriving DecidableEq

/-- One chunk step, mirroring the three relay/consumer lines
`buffer += chunk; const events = buffer.split("\n\n"); buffer = events.pop() || ""`
followed by the `for (const evt of events)` loop folding `step`. -/
def sseStep {σ : Type} (step : σ → List Char → σ) (st : SSEProc σ) (chunk : List Char) :
    SSEProc σ :=
  let p := sseSplit (st.buffer ++ chunk)
  ⟨p.2, p.1.foldl step st.acc⟩

/-- Processing a whole sequence of (already decoded) chunks in arrival order. -/
def sseRun {σ : Type} (step : σ → List Char → σ) (st : SSEProc σ) (chunks : List (List Char)) :
    SSEProc σ :=
  chunks.foldl (sseStep step) st

/-- A well-formed frame body: no blank-line delimiter inside, and not ending
in a newline (otherwise the trailing newline would merge with the delimiter). -/
def wfFrame (f : List Char) : Bool :=
  !hasNLNL f && !(f.getLast? = some '\n')

/-- Model of a parsed JSON value (the result shape of the platform
`JSON.parse` collaborator). -/
inductive JVal : Type
  | null : JVal
  | bool : Bool → JVal
  | num : Int → JVal
  | str : List Char → JVal
  | arr : List JVal → JVal
  | obj : List (List Char × JVal) → JVal

/-- JavaScript truthiness of a parsed JSON value. -/
def jsTruthy : JVal → Bool
  | JVal.null => false
  | JVal.bool b => b
  | JVal.num n => decide (n ≠ 0)
  | JVal.str s => decide (s ≠ [])
  | JVal.arr _ => true
  | JVal.obj _ => true

/-- JavaScript truthiness where `none` stands for `undefined`. -/
def jsTruthyOpt : Option JVal → Bool
  | none => false
  | some j => jsTruthy j

/-- Optional-chaining property access `j?.k`: `none` (undefined) unless `j`
is an object with field `k`. -/
def jGet (j : JVal) (k : List Char) : Option JVal :=
  match j with
  | JVal.obj fields => (fields.find? (fun p => decide (p.1 = k))).map Prod.snd
  | _ => none

/-- Optional-chaining index access `j?.[n]`: `none` unless `j` is an array
with an `n`-th element. -/
def jIndex (j : JVal) (n : Nat) : Option JVal :=
  match j with
  | JVal.arr xs => xs.get? n
  | _ => none

/-- `j?.choices?.[0]?.delta?.content || ""` — the streamed-delta path of the
relay and consumer, with `|| ""` collapsing a missing, null or empty value to
the empty string.  (Upstream deltas are strings; non-string content is not
coerced.) -/
def deltaContent (j : JVal) : List Char :=
  match (jGet j "choices".toList).bind (fun c => jIndex c 0)
      |>.bind (fun c => jGet c "delta".toList) |>.bind (fun c => jGet c "content".toList) with
  | some (JVal.str s) => s
  | _ => []

/-- `json?.choices?.[0]?.message?.content` — the non-streaming reply path. -/
def msgContent (j : JVal) : List Char :=
  match (jGet j "choices".toList).bind (fun c => jIndex c 0)
      |>.bind (fun c => jGet c "message".toList) |>.bind (fun c => jGet c "content".toList) with
  | some (JVal.str s) => s
  | _ => []

/-- `const stream: boolean = body?.stream !== false` — only the JSON literal
`false` selects the non-streaming path; an absent field (undefined) or any
other value selects streaming. -/
def streamOf : Option JVal → Bool
  | some (JVal.bool false) => false
  | _ => true

/-- `evt.split("\n").find((l) => l.startsWith("data:"))`. -/
def findDataLine (evt : List Char) : Option (List Char) :=
  (splitNL evt).find? (fun l => "data:".toList.isPrefixOf l)

/-- `line.replace(/^data:\s?/, "")`: drop the leading `data:` and at most one
following whitespace character. -/
def stripData (l : List Char) : List Char :=
  if "data:".toList.isPrefixOf l then
    match l.drop 5 with
    | [] => []
    | c :: r => if jsWs c then r else c :: r
  else l

/-- The literal upstream termination sentinel payload `[DONE]`. -/
def doneLit : List Char := "[DONE]".toList

/-- Body of the relay's per-event capture loop (`routeChat`, `streamOut` pull
handler): find the `data:` line, strip the prefix, skip the `[DONE]`
sentinel, otherwise `JSON.parse` (abstract parameter `parse`; `none` models a
thrown-and-caught parse error) and append a truthy delta to the accumulated
assistant text. -/
def procEvent (parse : List Char → Option JVal) (assistant : List Char) (evt : List Char) :
    List Char :=
  match findDataLine evt with
  | none => assistant
  | some line =>
    let payload := stripData line
    if payload = doneLit then assistant
    else
      match parse payload with
      | none => assistant
      | some j =>
        let delta := deltaContent j
        if delta = [] then assistant else assistant ++ delta

/-- The delta a single complete frame contributes to the relay accumulator. -/
def frameDelta (parse : List Char → Option JVal) (evt : List Char) : List Char :=
  procEvent parse [] evt

/-- The Unicode replacement character U+FFFD emitted by `TextDecoder` for
malformed UTF-8 input. -/
def repChar : Char := Char.ofNat 0xFFFD

/-- UTF-8 continuation byte test. -/
def isCont (b : Nat) : Bool := 0x80 ≤ b && b ≤ 0xBF

/-- Fuel-indexed WHATWG UTF-8 decode with replacement (the behaviour of
`new TextDecoder().decode(value)`): maximal-subpart error handling, one
U+FFFD per malformed or truncated sequence. -/
def utf8decF : Nat → List Nat → List Char
  | 0, _ => []
  | _ + 1, [] => []
  | fuel + 1, b :: rest =>
    if b ≤ 0x7F then Char.ofNat b :: utf8decF fuel rest
    else if b < 0xC2 then repChar :: utf8decF fuel rest
    else if b ≤ 0xDF then
      match rest with
      | [] => [repChar]
      | b2 :: rest2 =>
        if isCont b2 then Char.ofNat ((b - 0xC0) * 64 + (b2 - 0x80)) :: utf8decF fuel rest2
        else repChar :: utf8decF fuel rest
    else if b ≤ 0xEF then
      match rest with
      | [] => [repChar]
      | b2 :: rest2 =>
        if (if b = 0xE0 then 0xA0 ≤ b2 && b2 ≤ 0xBF
            else if b = 0xED then 0x80 ≤ b2 && b2 ≤ 0x9F
            else isCont b2) then
          match rest2 with
          | [] => [repChar]
          | b3 :: rest3 =>
            if isCont b3 then
              Char.ofNat ((b - 0xE0) * 4096 + (b2 - 0x80) * 64 + (b3 - 0x80)) ::
                utf8decF fuel rest3
            else repChar :: utf8decF fuel rest2
        else repChar :: utf8decF fuel rest
    else if b ≤ 0xF4 then
      match rest with
      | [] => [repChar]
      | b2 :: rest2 =>
        if (if b = 0xF0 then 0x90 ≤ b2 && b2 ≤ 0xBF
            else if b = 0xF4 then 0x80 ≤ b2 && b2 ≤ 0x8F
            else isCont b2) then
          match rest2 with
          | [] => [repChar]
          | b3 :: rest3 =>
            if isCont b3 then
              match rest3 with
              | [] => [repChar]
              | b4 :: rest4 =>
                if isCont b4 then
                  Char.ofNat ((b - 0xF0) * 262144 + (b2 - 0x80) * 4096 +
                      (b3 - 0x80) * 64 + (b4 - 0x80)) :: utf8decF fuel rest4
                else repChar :: utf8decF fuel rest3
            else repChar :: utf8decF fuel rest2
        else repChar :: utf8decF fuel rest
    else repChar :: utf8decF fuel rest

/-- `new TextDecoder().decode(bytes)`: whole-chunk UTF-8 decode with
replacement (no cross-chunk state — this is the decoder the relay creates
afresh for every chunk). -/
def utf8DecodeReplace (bytes : List Nat) : List Char :=
  utf8decF (bytes.length + 1) bytes

/-- UTF-8 encoding of one character (the behaviour of `TextEncoder`). -/
def utf8encChar (c : Char) : List Nat :=
  let n := c.toNat
  if n ≤ 0x7F then [n]
  else if n ≤ 0x7FF then [0xC0 + n / 64, 0x80 + n % 64]
  else if n ≤ 0xFFFF then [0xE0 + n / 4096, 0x80 + (n / 64) % 64, 0x80 + n % 64]
  else [0xF0 + n / 262144, 0x80 + (n / 4096) % 64, 0x80 + (n / 64) % 64, 0x80 + n % 64]

/-- `new TextEncoder().encode(s)` / `TextEncoder` on a JS string. -/
def strBytes (l : List Char) : List Nat :=
  (l.map utf8encChar).flatten

/-- The relay sentinel's JSON object key. -/
def storedKey : List Char := "__stored".toList

/-- Consumer-side accumulator (from the sentinel-aware `onSend`): the running
display buffer `full` and the `stored` flag set by the relay sentinel. -/
structure ConsAcc where
  full : List Char
  stored : Bool
deriving DecidableEq

/-- Body of the consumer's per-event loop (`onSend`): find the `data:` line,
strip the prefix, skip `[DONE]`, parse; `if (j && j.__stored) { stored =
true; continue; }`, otherwise append a truthy delta to the display buffer. -/
def consEvent (parse : List Char → Option JVal) (a : ConsAcc) (evt : List Char) : ConsAcc :=
  match findDataLine evt with
  | none => a
  | some line =>
    let payload := stripData line
    if payload = doneLit then a
    else
      match parse payload with
      | none => a
      | some j =>
        if jsTruthy j && jsTruthyOpt (jGet j storedKey) then { a with stored := true }
        else
          let delta := deltaContent j
          if delta = [] then a else { a with full := a.full ++ delta }

/-- Display text contributed by one complete frame on the consumer side. -/
def consFrameDelta (parse : List Char → Option JVal) (evt : List Char) : List Char :=
  (consEvent parse ⟨[], false⟩ evt).full

/-- Whether one complete frame carries the relay's persistence-complete
signal (truthy `__stored`). -/
def consFrameStored (parse : List Char → Option JVal) (evt : List Char) : Bool :=
  (consEvent parse ⟨[], false⟩ evt).stored

/-- Message roles of the persistence schema. -/
inductive Role : Type
  | system : Role
  | user : Role
  | assistant : Role
deriving DecidableEq

/-- Observable effects of one chat-send request, in program order:
database message inserts (`insertMessage`), the conditional chat-title update
(`updateChatTitleIfEmpty`), the upstream `fetch` of the completion API, HTTP
responses, bytes enqueued on the output `ReadableStream`, and closing it. -/
inductive Eff : Type
  | insertMsg (role : Role) (content : List Char)
  | titleUpdate (fromText : List Char)
  | upstreamCall (messages : List (Role × List Char)) (stream : Bool)
  | respond (status : Nat)
  | enq (bytes : List Nat)
  | closeStream
deriving DecidableEq

/-- The relay-synthesized terminal frame `data: {"__stored": true}\n\n`
(text). -/
def sentinelFrame : List Char := "data: \x7b\"__stored\": true\x7d\n\n".toList

/-- `encoder.encode` of the terminal frame — the bytes the relay enqueues
after persisting. -/
def sentinelBytes : List Nat := strBytes sentinelFrame

/-- One upstream chunk step of the relay's capture: decode the raw bytes with
a fresh (non-streaming) `TextDecoder` and run the SSE capture step on the
decoded text. -/
def relayStep (parse : List Char → Option JVal) (st : SSEProc (List Char)) (v : List Nat) :
    SSEProc (List Char) :=
  sseStep (procEvent parse) st (utf8DecodeReplace v)

/-- Relay capture state after a sequence of upstream byte chunks. -/
def relayCapture (parse : List Char → Option JVal) (st : SSEProc (List Char))
    (chunks : List (List Nat)) : SSEProc (List Char) :=
  chunks.foldl (relayStep parse) st

/-- Effect trace of the relay's `streamOut` pull handler over a full upstream
run: each pull enqueues the upstream bytes verbatim and feeds them to the
capture; on `done` it persists the accumulated assistant text when non-empty
after trimming, enqueues the sentinel frame, and closes the stream. -/
def relayTraceAux (parse : List Char → Option JVal) (st : SSEProc (List Char)) :
    List (List Nat) → List Eff
  | [] =>
    (if jsTrim st.acc = [] then [] else [Eff.insertMsg Role.assistant st.acc])
      ++ [Eff.enq sentinelBytes, Eff.closeStream]
  | v :: rest => Eff.enq v :: relayTraceAux parse (relayStep parse st v) rest

/-- Effect trace of a streaming run of the relay from the initial (empty)
capture state. -/
def relayTrace (parse : List Char → Option JVal) (chunks : List (List Nat)) : List Eff :=
  relayTraceAux parse ⟨[], []⟩ chunks

/-- The byte chunks a trace enqueues on the output stream, in order. -/
def enqueuedBytes (t : List Eff) : List (List Nat) :=
  t.filterMap (fun e => match e with | Eff.enq b => some b | _ => none)

/-- The system prompt prepended to every upstream conversation. -/
def SYS_PROMPT : List Char :=
  "You are a helpful, friendly assistant. Keep answers concise and accurate.".toList

/-- The parsed chat-send request body plus the `authorization` header:
`chat_id`, `content` and `stream` fields of `body` (absent = `none`), and the
raw header value. -/
structure ChatReq where
  chat_id : Option (List Char)
  content : Option (List Char)
  stream : Option JVal
  auth : Option (List Char)

/-- The environment visible to one chat-send request: the configured API key
(`env.DEEPSEEK_API_KEY`, empty = unset/falsy), whether `chatExists` finds the
conversation, and the stored messages of that conversation in `created_at`
ascending order (before the new user message is inserted). -/
structure EnvDB where
  apiKey : List Char
  chatFound : Bool
  stored : List (Role × List Char)

/-- The upstream `fetch` outcome: HTTP status, response body byte chunks (in
arrival order; the concatenation is the body for `text()`), and whether
`dsRes.body` is non-null. -/
structure UpstreamRes where
  status : Nat
  chunks : List (List Nat)
  bodyPresent : Bool

/-- `Response.ok`: status in the inclusive range 200–299. -/
def resOk (status : Nat) : Bool := decide (200 ≤ status ∧ status ≤ 299)

/-- `h.replace(/^[Bb]earer\s+/, "")`: drop a leading case-tolerant `Bearer`
followed by at least one whitespace character (greedy). -/
def stripBearer (h : List Char) : List Char :=
  match h with
  | [] => []
  | c :: rest =>
    if (c = 'B' ∨ c = 'b') ∧ "earer".toList.isPrefixOf rest then
      let r := rest.drop 5
      match r with
      | [] => h
      | c2 :: _ => if jsWs c2 then r.dropWhile jsWs else h
    else h

/-- `(authorization header)?.replace(/^[Bb]earer\s+/, "") || env.DEEPSEEK_API_KEY`. -/
def apiKeyOf (req : ChatReq) (env : EnvDB) : List Char :=
  match req.auth with
  | none => env.apiKey
  | some h => match stripBearer h with
    | [] => env.apiKey
    | k => k

/-- `history.slice(-30)`: the last 30 elements (all of them when fewer). -/
def sliceLast30 (l : List (Role × List Char)) : List (Role × List Char) :=
  l.drop (l.length - 30)

/-- The `messages` array sent upstream: the system prompt, then the last 30
of the conversation read back from the store (`getMessages` with `LIMIT 1000`,
`created_at` ascending — the stored messages followed by the just-inserted
user message). -/
def buildMessages (env : EnvDB) (content : List Char) : List (Role × List Char) :=
  (Role.system, SYS_PROMPT) :: sliceLast30 ((env.stored ++ [(Role.user, content)]).take 1000)

/-- Effect trace of `routeChat` on a parsed JSON body: validation, user
insert, title update, upstream call, then the non-streaming passthrough, the
failed-upstream passthrough, or the streaming tee (`relayTrace`). -/
def routeChatTrace (parse : List Char → Option JVal) (req : ChatReq) (env : EnvDB)
    (up : UpstreamRes) : List Eff :=
  let chatId := req.chat_id.getD []
  let content := jsTrim (req.content.getD [])
  let stream := streamOf req.stream
  if chatId = [] then [Eff.respond 400]
  else if content = [] then [Eff.respond 400]
  else if !env.chatFound then [Eff.respond 404]
  else
    let pre := [Eff.insertMsg Role.user content, Eff.titleUpdate content]
    let msgs := buildMessages env content
    if apiKeyOf req env = [] then pre ++ [Eff.respond 401]
    else if !stream then
      let text := utf8DecodeReplace up.chunks.flatten
      let msg := match parse text with
        | none => []
        | some j => msgContent j
      pre ++ [Eff.upstreamCall msgs false] ++
        (if msg = [] then [] else [Eff.insertMsg Role.assistant msg]) ++
        [Eff.respond up.status]
    else if !resOk up.status && up.bodyPresent then
      pre ++ [Eff.upstreamCall msgs true, Eff.respond up.status]
    else
      pre ++ [Eff.upstreamCall msgs true, Eff.respond 200] ++ relayTrace parse up.chunks

/-- Consumer post-stream actions (`onSend` after the read loop):
`fetchConv` is the immediate authoritative re-fetch + re-render
(`await loadChat(chatId)`), `delayedFetch` the 300 ms fallback
`setTimeout(() => loadChat(chatId).catch(() => {}), 300)` whose own failure
is swallowed, and `refreshList` the trailing `refreshChats()`. -/
inductive CAct : Type
  | fetchConv : CAct
  | delayedFetch : CAct
  | refreshList : CAct
deriving DecidableEq

/-- The consumer's read-loop state after a sequence of decoded text chunks
(the client decodes with a single streaming `TextDecoder`, so its chunks are
character-aligned). -/
def consRun (parse : List Char → Option JVal) (chunks : List (List Char)) : SSEProc ConsAcc :=
  sseRun (consEvent parse) ⟨[], ⟨[], false⟩⟩ chunks

/-- The consumer's actions once the read loop ends: immediate reconciliation
fetch when the sentinel confirmed storage, otherwise a delayed tolerant
re-fetch; then the chat-list refresh. -/
def consTrace (parse : List Char → Option JVal) (chunks : List (List Char)) : List CAct :=
  (if (consRun parse chunks).acc.stored then [CAct.fetchConv] else [CAct.delayedFetch])
    ++ [CAct.refreshList]

/-- A parsed streamed-delta event `{"choices":[{"delta":{"content": c}}]}`. -/
def deltaObj (content : List Char) : JVal :=
  JVal.obj [("choices".toList,
    JVal.arr [JVal.obj [("delta".toList,
      JVal.obj [("content".toList, JVal.str content)])]])]

/-- The character U+00E9 (a two-byte UTF-8 character used to exhibit the
mid-character chunk split). -/
def eAcute : Char := Char.ofNat 233

/-- The clean delta payload carrying the single-character delta U+00E9. -/
def cxPayloadClean : List Char :=
  "\x7b\"choices\":[\x7b\"delta\":\x7b\"content\":\"".toList ++ [eAcute] ++ "\"\x7d\x7d]\x7d".toList

/-- What the relay's per-chunk decoder actually reassembles when the chunk
boundary falls between the two bytes of U+00E9: two replacement characters. -/
def cxPayloadBad : List Char :=
  "\x7b\"choices\":[\x7b\"delta\":\x7b\"content\":\"".toList ++ [repChar, repChar]
    ++ "\"\x7d\x7d]\x7d".toList

/-- `JSON.parse` on the two payloads of the counterexample (both are valid
JSON; the corrupted one parses to a content string of two replacement
characters). -/
def cxParse : List Char → Option JVal := fun s =>
  if s = cxPayloadClean then some (deltaObj [eAcute])
  else if s = cxPayloadBad then some (deltaObj [repChar, repChar])
  else none

/-- The single well-formed SSE data frame of the counterexample. -/
def cxFrame : List Char := "data: ".toList ++ cxPayloadClean

/-- First byte chunk: the frame bytes up to and including the UTF-8 lead byte
0xC3 of U+00E9. -/
def cxChunk1 : List Nat :=
  strBytes ("data: \x7b\"choices\":[\x7b\"delta\":\x7b\"content\":\"".toList) ++ [0xC3]

/-- Second byte chunk: the continuation byte 0xA9 and the remainder of the
frame, including the blank-line delimiter. -/
def cxChunk2 : List Nat := [0xA9] ++ strBytes ("\"\x7d\x7d]\x7d\n\n".toList)

/-- Delta payload `{"choices":[{"delta":{"content":"Hel"}}]}` of the witness
scenario. -/
def wPayloadHel : List Char :=
  "\x7b\"choices\":[\x7b\"delta\":\x7b\"content\":\"Hel\"\x7d\x7d]\x7d".toList

/-- Delta payload `{"choices":[{"delta":{"content":"lo"}}]}` of the witness
scenario. -/
def wPayloadLo : List Char :=
  "\x7b\"choices\":[\x7b\"delta\":\x7b\"content\":\"lo\"\x7d\x7d]\x7d".toList

/-- `JSON.parse` on the witness payloads. -/
def wParse : List Char → Option JVal := fun s =>
  if s = wPayloadHel then some (deltaObj "Hel".toList)
  else if s = wPayloadLo then some (deltaObj "lo".toList)
  else none

/-- The three frames of the witness scenario: two delta frames and the
upstream `[DONE]` sentinel frame. -/
def wFrames : List (List Char) :=
  ["data: ".toList ++ wPayloadHel, "data: ".toList ++ wPayloadLo, "data: [DONE]".toList]

/-- The full framed stream of the witness scenario. -/
def wStream : List Char := (wFrames.map (fun f => f ++ ['\n', '\n'])).flatten

/-- A chunking of the witness stream whose boundary falls mid-frame (inside
the first frame's JSON payload). -/
def wChunks : List (List Char) := [wStream.take 25, wStream.drop 25]

/-- Is the effect an `insertMessage` with the given role? -/
def isRoleInsert (r : Role) : Eff → Bool
  | Eff.insertMsg r2 _ => decide (r2 = r)
  | _ => false

/-- Number of message inserts with the given role in a trace. -/
def countInserts (r : Role) (t : List Eff) : Nat := (t.filter (isRoleInsert r)).length

/-- Is the effect the chat-title update? -/
def isTitleUpd : Eff → Bool
  | Eff.titleUpdate _ => true
  | _ => false

/-- Number of chat-title update attempts in a trace. -/
def countTitleUpd (t : List Eff) : Nat := (t.filter isTitleUpd).length

/-- Semantics of `updateChatTitleIfEmpty`'s SQL
`UPDATE chats SET title = COALESCE(NULLIF(title,''), ?2)
 WHERE id = ?1 AND (title IS NULL OR title = '')`
on the chat's title column (`none` = SQL NULL), with
`?2 = fromText.trim().slice(0, 48)`. -/
def updateChatTitleIfEmpty (title : Option (List Char)) (fromText : List Char) :
    Option (List Char) :=
  if title = none ∨ title = some [] then some ((jsTrim fromText).take 48) else title

/-- A `JSON.parse` collaborator that fails on every payload (adequate for
runs whose payloads are never parsed). -/
def noParse : List Char → Option JVal := fun _ => none

/-- A validation-passing request: existing chat id, non-blank content,
no `stream` field, no authorization header. -/
def rqA : ChatReq := ⟨some "a".toList, some " hi ".toList, none, none⟩

/-- Environment with a configured API key, an existing chat and no prior
messages. -/
def envOk : EnvDB := ⟨"k".toList, true, []⟩

/-- Environment with an existing chat but no configured API key. -/
def envNoKey : EnvDB := ⟨[], true, []⟩

/-- A successful streaming upstream response delivering the witness stream
as a single chunk. -/
def upW : UpstreamRes := ⟨200, [strBytes wStream], true⟩

/-- Environment whose conversation already holds 31 messages (enough to
trigger the last-30 truncation). -/
def env31 : EnvDB := ⟨"k".toList, true, List.replicate 31 (Role.user, ['m'])⟩

/-- An upstream response with an empty body. -/
def upEmpty : UpstreamRes := ⟨200, [], true⟩

/-- The relay-sentinel payload as the consumer sees it. -/
def c7SentPayload : List Char := "\x7b\"__stored\": true\x7d".toList

/-- `JSON.parse` on the C7 witness payloads: one delta frame and the relay
sentinel object. -/
def c7Parse : List Char → Option JVal := fun s =>
  if s = wPayloadHel then some (deltaObj "Hel".toList)
  else if s = c7SentPayload then some (JVal.obj [(storedKey, JVal.bool true)])
  else none

/-- The C7 witness frames: one delta frame, then the relay sentinel frame. -/
def frames7 : List (List Char) :=
  ["data: ".toList ++ wPayloadHel, "data: ".toList ++ c7SentPayload]

/-- The C7 witness chunking (a single chunk). -/
def chunks7 : List (List Char) := [(frames7.map (fun f => f ++ ['\n', '\n'])).flatten]

theorem sseSplit_delim (rest : List Char) :
    sseSplit ('\n' :: '\n' :: rest) = ([] :: (sseSplit rest).1, (sseSplit rest).2) := by
  simp [sseSplit]

theorem sseSplit_cons_of_events_nil {c1 c2 : Char} {rest : List Char}
    (h : ¬(c1 = '\n' ∧ c2 = '\n')) (hp : (sseSplit (c2 :: rest)).1 = []) :
    sseSplit (c1 :: c2 :: rest) = ([], c1 :: (sseSplit (c2 :: rest)).2) := by
  simp only [sseSplit, if_neg h, hp]

theorem sseSplit_cons_of_events_cons {c1 c2 : Char} {rest e : List Char} {es : List (List Char)}
    (h : ¬(c1 = '\n' ∧ c2 = '\n')) (hp : (sseSplit (c2 :: rest)).1 = e :: es) :
    sseSplit (c1 :: c2 :: rest) = ((c1 :: e) :: es, (sseSplit (c2 :: rest)).2) := by
  simp only [sseSplit, if_neg h, hp]

theorem sseSplit_events_nil_frag : ∀ l : List Char, (sseSplit l).1 = [] → (sseSplit l).2 = l := by
  intro l
  induction l using sseSplit.induct with
  | case1 => intro _; rfl
  | case2 c => intro _; rfl
  | case3 c1 c2 rest h ih =>
    obtain ⟨h1, h2⟩ := h
    subst h1; subst h2
    intro hev
    rw [sseSplit_delim] at hev
    exact absurd hev (by simp)
  | case4 c1 c2 rest h p hp ih =>
    intro _
    rw [sseSplit_cons_of_events_nil h hp]
    simp [ih hp]
  | case5 c1 c2 rest h p e es hp ih =>
    intro hev
    rw [sseSplit_cons_of_events_cons h hp] at hev
    exact absurd hev (by simp)

theorem sseSplit_append (a b : List Char) :
    sseSplit (a ++ b) =
      ((sseSplit a).1 ++ (sseSplit ((sseSplit a).2 ++ b)).1,
       (sseSplit ((sseSplit a).2 ++ b)).2) := by
  induction a using sseSplit.induct with
  | case1 => simp [sseSplit]
  | case2 c => simp [sseSplit]
  | case3 c1 c2 rest h ih =>
    obtain ⟨h1, h2⟩ := h
    subst h1; subst h2
    simp only [List.cons_append]
    rw [sseSplit_delim, sseSplit_delim, ih]
    simp
  | case4 c1 c2 rest h p hp ih =>
    have hfrag : (sseSplit (c2 :: rest)).2 = c2 :: rest := sseSplit_events_nil_frag _ hp
    rw [sseSplit_cons_of_events_nil h hp]
    simp only [List.nil_append, hfrag, List.cons_append]
  | case5 c1 c2 rest h p e es hp ih =>
    have ih' : sseSplit (c2 :: (rest ++ b)) =
        (e :: (es ++ (sseSplit ((sseSplit (c2 :: rest)).2 ++ b)).1),
         (sseSplit ((sseSplit (c2 :: rest)).2 ++ b)).2) := by
      have h2 := ih
      rw [show (c2 :: rest) ++ b = c2 :: (rest ++ b) from rfl] at h2
      rw [h2, hp]
      simp
    rw [show (c1 :: c2 :: rest) ++ b = c1 :: c2 :: (rest ++ b) from rfl]
    rw [sseSplit_cons_of_events_cons h (by rw [ih']),
        sseSplit_cons_of_events_cons h hp]
    rw [ih']
    simp

theorem sseStep_append {σ : Type} (step : σ → List Char → σ) (st : SSEProc σ) (a b : List Char) :
    sseStep step (sseStep step st a) b = sseStep step st (a ++ b) := by
  unfold sseStep
  rw [show st.buffer ++ (a ++ b) = (st.buffer ++ a) ++ b by simp]
  rw [sseSplit_append (st.buffer ++ a) b]
  simp [List.foldl_append]

theorem sseRun_flatten_aux {σ : Type} (step : σ → List Char → σ) :
    ∀ (chunks : List (List Char)) (a : List Char) (st : SSEProc σ),
      sseRun step (sseStep step st a) chunks = sseStep step st (a ++ chunks.flatten) := by
  intro chunks
  induction chunks with
  | nil => intro a st; simp [sseRun]
  | cons c cs ih =>
    intro a st
    simp only [sseRun, List.foldl_cons]
    rw [sseStep_append step st a c]
    have := ih (a ++ c) st
    simp only [sseRun] at this
    rw [this]
    simp

/-- Chunk-boundary invariance: processing any chunking of a byte-equal text
stream from the initial state gives the same result as processing it in one
piece. -/
theorem sseRun_flatten {σ : Type} (step : σ → List Char → σ) (a0 : σ) (chunks : List (List Char)) :
    sseRun step ⟨[], a0⟩ chunks = sseStep step ⟨[], a0⟩ chunks.flatten := by
  have h0 : sseStep step (⟨[], a0⟩ : SSEProc σ) [] = ⟨[], a0⟩ := rfl
  have := sseRun_flatten_aux step chunks [] ⟨[], a0⟩
  rw [h0] at this
  simpa using this

theorem sseSplit_of_noDelim :
    ∀ l : List Char, hasNLNL l = false → sseSplit l = ([], l) := by
  intro l
  induction l using sseSplit.induct with
  | case1 => intro _; rfl
  | case2 c => intro _; rfl
  | case3 c1 c2 rest h ih =>
    intro hno
    obtain ⟨h1, h2⟩ := h
    subst h1; subst h2
    simp [hasNLNL] at hno
  | case4 c1 c2 rest h p hp ih =>
    intro hno
    have hno2 : hasNLNL (c2 :: rest) = false := by
      simp only [hasNLNL, Bool.or_eq_false_iff] at hno
      exact hno.2
    rw [sseSplit_cons_of_events_nil h hp, sseSplit_events_nil_frag _ hp]
  | case5 c1 c2 rest h p e es hp ih =>
    intro hno
    have hno2 : hasNLNL (c2 :: rest) = false := by
      simp only [hasNLNL, Bool.or_eq_false_iff] at hno
      exact hno.2
    have hp2 : (sseSplit (c2 :: rest)).1 = e :: es := hp
    rw [ih hno2] at hp2
    exact absurd hp2 (by simp)

/-- Splitting one well-formed frame followed by the delimiter yields exactly
that frame as the single complete event and an empty carry-over. -/
theorem sseSplit_frame :
    ∀ f : List Char, wfFrame f = true → sseSplit (f ++ ['\n', '\n']) = ([f], []) := by
  intro f
  induction f using sseSplit.induct with
  | case1 =>
    intro _
    simp [sseSplit_delim, sseSplit]
  | case2 c =>
    intro hwf
    have hc : ¬(c = '\n' ∧ '\n' = '\n') := by
      simp only [wfFrame, Bool.and_eq_true, Bool.not_eq_true'] at hwf
      have := hwf.2
      simp only [List.getLast?_singleton] at this
      simp only [decide_eq_false_iff_not] at this
      intro hcc
      exact this (by simp [hcc.1])
    rw [show [c] ++ ['\n', '\n'] = c :: '\n' :: ['\n'] from rfl]
    rw [sseSplit_cons_of_events_cons hc (show (sseSplit ('\n' :: ['\n'])).1 = [] :: [] from rfl)]
    rfl
  | case3 c1 c2 rest h ih =>
    intro hwf
    obtain ⟨h1, h2⟩ := h
    subst h1; subst h2
    simp [wfFrame, hasNLNL] at hwf
  | case4 c1 c2 rest h p hp ih =>
    intro hwf
    have hwf2 : wfFrame (c2 :: rest) = true := by
      simp only [wfFrame, Bool.and_eq_true, Bool.not_eq_true'] at hwf ⊢
      constructor
      · have := hwf.1
        simp only [hasNLNL, Bool.or_eq_false_iff] at this
        exact this.2
      · have := hwf.2
        rwa [List.getLast?_cons_cons] at this
    have hrec := ih hwf2
    rw [show (c1 :: c2 :: rest) ++ ['\n', '\n'] = c1 :: c2 :: (rest ++ ['\n', '\n']) from rfl]
    rw [sseSplit_cons_of_events_cons h (by rw [show c2 :: (rest ++ ['\n', '\n']) = (c2 :: rest) ++ ['\n', '\n'] from rfl, hrec])]
    rw [show c2 :: (rest ++ ['\n', '\n']) = (c2 :: rest) ++ ['\n', '\n'] from rfl, hrec]
  | case5 c1 c2 rest h p e es hp ih =>
    intro hwf
    have hwf2 : wfFrame (c2 :: rest) = true := by
      simp only [wfFrame, Bool.and_eq_true, Bool.not_eq_true'] at hwf ⊢
      constructor
      · have := hwf.1
        simp only [hasNLNL, Bool.or_eq_false_iff] at this
        exact this.2
      · have := hwf.2
        rwa [List.getLast?_cons_cons] at this
    have hrec := ih hwf2
    rw [show (c1 :: c2 :: rest) ++ ['\n', '\n'] = c1 :: c2 :: (rest ++ ['\n', '\n']) from rfl]
    rw [sseSplit_cons_of_events_cons h (by rw [show c2 :: (rest ++ ['\n', '\n']) = (c2 :: rest) ++ ['\n', '\n'] from rfl, hrec])]
    rw [show c2 :: (rest ++ ['\n', '\n']) = (c2 :: rest) ++ ['\n', '\n'] from rfl, hrec]

/-- Splitting a concatenation of well-formed delimiter-terminated frames
recovers exactly those frames, with empty carry-over. -/
theorem sseSplit_joined_frames :
    ∀ frames : List (List Char), (∀ f ∈ frames, wfFrame f = true) →
      sseSplit ((frames.map (fun f => f ++ ['\n', '\n'])).flatten) = (frames, []) := by
  intro frames
  induction frames with
  | nil => intro _; rfl
  | cons f fs ih =>
    intro hwf
    simp only [List.map_cons, List.flatten_cons]
    rw [sseSplit_append (f ++ ['\n', '\n']) _]
    rw [sseSplit_frame f (hwf f (by simp))]
    rw [List.nil_append]
    rw [ih (fun g hg => hwf g (by simp [hg]))]
    rfl

theorem procEvent_append (parse : List Char → Option JVal) (assistant evt : List Char) :
    procEvent parse assistant evt = assistant ++ frameDelta parse evt := by
  unfold frameDelta procEvent
  cases findDataLine evt with
  | none => simp
  | some line =>
    simp only
    by_cases hd : stripData line = doneLit
    · simp [hd]
    · simp only [if_neg hd]
      cases parse (stripData line) with
      | none => simp
      | some j =>
        simp only
        by_cases hδ : deltaContent j = []
        · simp [hδ]
        · simp [hδ]

theorem foldl_procEvent (parse : List Char → Option JVal) :
    ∀ (evts : List (List Char)) (assistant : List Char),
      evts.foldl (procEvent parse) assistant =
        assistant ++ (evts.map (frameDelta parse)).flatten := by
  intro evts
  induction evts with
  | nil => intro a; simp
  | cons e es ih =>
    intro a
    simp only [List.foldl_cons, List.map_cons, List.flatten_cons]
    rw [procEvent_append, ih, List.append_assoc]

theorem consEvent_decomp (parse : List Char → Option JVal) (a : ConsAcc) (evt : List Char) :
    consEvent parse a evt =
      ⟨a.full ++ consFrameDelta parse evt, a.stored || consFrameStored parse evt⟩ := by
  unfold consFrameDelta consFrameStored consEvent
  cases findDataLine evt with
  | none => simp
  | some line =>
    simp only
    by_cases hd : stripData line = doneLit
    · simp [hd]
    · simp only [if_neg hd]
      cases parse (stripData line) with
      | none => simp
      | some j =>
        simp only
        by_cases hs : (jsTruthy j && jsTruthyOpt (jGet j storedKey)) = true
        · simp only [if_pos hs]
          simp
        · simp only [if_neg hs]
          by_cases hδ : deltaContent j = []
          · simp [hδ]
          · simp [hδ]

theorem foldl_consEvent (parse : List Char → Option JVal) :
    ∀ (evts : List (List Char)) (a : ConsAcc),
      evts.foldl (consEvent parse) a =
        ⟨a.full ++ (evts.map (consFrameDelta parse)).flatten,
         a.stored || evts.any (consFrameStored parse)⟩ := by
  intro evts
  induction evts with
  | nil => intro a; simp
  | cons e es ih =>
    intro a
    simp only [List.foldl_cons, List.map_cons, List.flatten_cons, List.any_cons]
    rw [consEvent_decomp, ih]
    simp [List.append_assoc, Bool.or_assoc]

theorem relayTraceAux_eq (parse : List Char → Option JVal) :
    ∀ (chunks : List (List Nat)) (st : SSEProc (List Char)),
      relayTraceAux parse st chunks =
        chunks.map Eff.enq ++ relayTraceAux parse (relayCapture parse st chunks) [] := by
  intro chunks
  induction chunks with
  | nil => intro st; simp [relayCapture]
  | cons v rest ih =>
    intro st
    simp only [relayTraceAux, List.map_cons, List.cons_append]
    rw [ih (relayStep parse st v)]
    simp [relayCapture, relayTraceAux]

/-- C1 (amended) — Lossless reassembly at character granularity: for every
sequence of text chunks whose concatenation is valid SSE framing made of
well-formed delimiter-terminated frames, the relay's accumulated assistant
text and the consumer's display buffer each equal the concatenation, in
arrival order, of the per-frame deltas, regardless of how the chunk
boundaries split the stream (mid-frame, mid-line, or exactly at the
delimiter).  Chunk boundaries inside a multi-byte UTF-8 character are
excluded: the relay's per-chunk non-streaming decode corrupts those (see the
counterexample). -/
theorem lossless_reassembly (parse : List Char → Option JVal)
    (frames chunks : List (List Char))
    (hjoin : chunks.flatten = (frames.map (fun f => f ++ ['\n', '\n'])).flatten)
    (hwf : ∀ f ∈ frames, wfFrame f = true) :
    (sseRun (procEvent parse) ⟨[], []⟩ chunks).acc = (frames.map (frameDelta parse)).flatten
    ∧ (consRun parse chunks).acc.full = (frames.map (consFrameDelta parse)).flatten := by
  constructor
  · rw [sseRun_flatten, hjoin]
    unfold sseStep
    simp only [List.nil_append]
    rw [sseSplit_joined_frames frames hwf]
    simp only
    rw [foldl_procEvent]
    simp
  · unfold consRun
    rw [sseRun_flatten, hjoin]
    unfold sseStep
    simp only [List.nil_append]
    rw [sseSplit_joined_frames frames hwf]
    simp only
    rw [foldl_consEvent]
    simp

/-- C1 counterexample — the claim is false as stated: the two byte chunks
concatenate to one valid SSE data frame carrying the single delta U+00E9,
yet the relay's accumulated assistant text after processing the split chunks
is two replacement characters, not the delta: `new TextDecoder().decode(value)`
is instantiated afresh per chunk, so a boundary inside a multi-byte character
corrupts the capture (processing the same bytes as one chunk yields the
correct delta). -/
theorem lossless_reassembly_cx :
    cxChunk1 ++ cxChunk2 = strBytes (cxFrame ++ ['\n', '\n'])
    ∧ wfFrame cxFrame = true
    ∧ (relayCapture cxParse ⟨[], []⟩ [cxChunk1 ++ cxChunk2]).acc = [eAcute]
    ∧ (relayCapture cxParse ⟨[], []⟩ [cxChunk1, cxChunk2]).acc = [repChar, repChar]
    ∧ ([repChar, repChar] : List Char) ≠ [eAcute] := by
  refine ⟨by decide, by decide, by decide, by decide, by decide⟩

theorem lossless_reassembly_witness :
    (wChunks.flatten = (wFrames.map (fun f => f ++ ['\n', '\n'])).flatten
      ∧ (∀ f ∈ wFrames, wfFrame f = true))
    ∧ ((sseRun (procEvent wParse) ⟨[], []⟩ wChunks).acc = (wFrames.map (frameDelta wParse)).flatten
      ∧ (consRun wParse wChunks).acc.full = (wFrames.map (consFrameDelta wParse)).flatten)
    ∧ (wFrames.map (frameDelta wParse)).flatten = "Hello".toList :=
  ⟨⟨by decide, by decide⟩,
   lossless_reassembly wParse wFrames wChunks (by decide) (by decide),
   by decide⟩

/-- C2 — Tee fidelity: over any upstream run, the byte chunks the relay
enqueues on its output stream are exactly the upstream chunks, unmodified and
in order, followed by exactly one relay-synthesized terminal frame (the
`{"__stored": true}` SSE event), and nothing else. -/
theorem tee_fidelity (parse : List Char → Option JVal) (chunks : List (List Nat)) :
    enqueuedBytes (relayTrace parse chunks) = chunks ++ [sentinelBytes] := by
  unfold relayTrace
  rw [relayTraceAux_eq]
  unfold relayTraceAux enqueuedBytes
  by_cases h : jsTrim (relayCapture parse ⟨[], []⟩ chunks).acc = [] <;>
    simp [h, List.filterMap_append, List.filterMap_map, Function.comp_def]

/-- C3 — Persist-then-sentinel-then-close: every streaming run of the relay
ends with the sentinel enqueue immediately followed by the close; no close
occurs earlier; when the accumulated assistant text is non-empty after
trimming, the persistence write is the action immediately preceding the
sentinel enqueue, and when it is empty no insert happens at all. -/
theorem store_sentinel_close (parse : List Char → Option JVal) (chunks : List (List Nat)) :
    ∃ pre : List Eff,
      relayTrace parse chunks = pre ++ [Eff.enq sentinelBytes, Eff.closeStream]
      ∧ Eff.closeStream ∉ pre
      ∧ (jsTrim (relayCapture parse ⟨[], []⟩ chunks).acc ≠ [] →
          pre.getLast? = some (Eff.insertMsg Role.assistant
            (relayCapture parse ⟨[], []⟩ chunks).acc))
      ∧ (jsTrim (relayCapture parse ⟨[], []⟩ chunks).acc = [] →
          ∀ r c, Eff.insertMsg r c ∉ pre) := by
  refine ⟨chunks.map Eff.enq
      ++ (if jsTrim (relayCapture parse ⟨[], []⟩ chunks).acc = [] then []
          else [Eff.insertMsg Role.assistant (relayCapture parse ⟨[], []⟩ chunks).acc]),
    ?_, ?_, ?_, ?_⟩
  · unfold relayTrace
    rw [relayTraceAux_eq]
    unfold relayTraceAux
    by_cases h : jsTrim (relayCapture parse ⟨[], []⟩ chunks).acc = [] <;> simp [h]
  · by_cases h : jsTrim (relayCapture parse ⟨[], []⟩ chunks).acc = [] <;> simp [h]
  · intro h
    simp [if_neg h, List.getLast?_concat]
  · intro h r c
    simp [h]

/-- Witness for C3 at a concrete streaming run with a non-empty accumulated
delta, exercising the implication branches. -/
theorem store_sentinel_close_witness :
    (∃ pre : List Eff,
      relayTrace wParse [strBytes wStream] = pre ++ [Eff.enq sentinelBytes, Eff.closeStream]
      ∧ Eff.closeStream ∉ pre
      ∧ (jsTrim (relayCapture wParse ⟨[], []⟩ [strBytes wStream]).acc ≠ [] →
          pre.getLast? = some (Eff.insertMsg Role.assistant
            (relayCapture wParse ⟨[], []⟩ [strBytes wStream]).acc))
      ∧ (jsTrim (relayCapture wParse ⟨[], []⟩ [strBytes wStream]).acc = [] →
          ∀ r c, Eff.insertMsg r c ∉ pre))
    ∧ jsTrim (relayCapture wParse ⟨[], []⟩ [strBytes wStream]).acc = "Hello".toList :=
  ⟨store_sentinel_close wParse [strBytes wStream], by decide⟩

/-- C8 — Sentinel and malformed-frame skipping: a complete frame whose data
payload is the literal `[DONE]` sentinel, or whose payload fails to parse,
leaves the assistant accumulator unchanged and processing continues with the
remaining frames. -/
theorem frame_skip (parse : List Char → Option JVal) (acc evt line : List Char)
    (rest : List (List Char)) (hline : findDataLine evt = some line)
    (hskip : stripData line = doneLit ∨ parse (stripData line) = none) :
    (evt :: rest).foldl (procEvent parse) acc = rest.foldl (procEvent parse) acc := by
  have hskip2 : procEvent parse acc evt = acc := by
    unfold procEvent
    rw [hline]
    rcases hskip with h | h
    · simp [h]
    · by_cases hd : stripData line = doneLit
      · simp [hd]
      · simp [hd, h]
  simp only [List.foldl_cons, hskip2]

/-- Witness for C8: the `[DONE]` frame and a malformed (non-JSON) frame are
both skipped while the following delta frame still contributes. -/
theorem frame_skip_witness :
    ((findDataLine "data: [DONE]".toList = some "data: [DONE]".toList
        ∧ stripData "data: [DONE]".toList = doneLit)
      ∧ ("data: [DONE]".toList :: ["data: ".toList ++ wPayloadHel]).foldl (procEvent wParse)
          "x".toList
        = ["data: ".toList ++ wPayloadHel].foldl (procEvent wParse) "x".toList)
    ∧ ((findDataLine "data: keep-alive".toList = some "data: keep-alive".toList
        ∧ wParse (stripData "data: keep-alive".toList) = none)
      ∧ ("data: keep-alive".toList :: ["data: ".toList ++ wPayloadHel]).foldl (procEvent wParse)
          "x".toList
        = ["data: ".toList ++ wPayloadHel].foldl (procEvent wParse) "x".toList)
    ∧ ["data: ".toList ++ wPayloadHel].foldl (procEvent wParse) "x".toList = "xHel".toList :=
  ⟨⟨⟨by decide, by decide⟩,
    frame_skip wParse "x".toList "data: [DONE]".toList "data: [DONE]".toList
      ["data: ".toList ++ wPayloadHel] (by decide) (Or.inl (by decide))⟩,
   ⟨⟨by decide, by rfl⟩,
    frame_skip wParse "x".toList "data: keep-alive".toList "data: keep-alive".toList
      ["data: ".toList ++ wPayloadHel] (by decide) (Or.inr (by rfl))⟩,
   by decide⟩

theorem countInserts_append (r : Role) (a b : List Eff) :
    countInserts r (a ++ b) = countInserts r a + countInserts r b := by
  simp [countInserts, List.filter_append]

theorem countInserts_enqMap (r : Role) (l : List (List Nat)) :
    countInserts r (l.map Eff.enq) = 0 := by
  induction l with
  | nil => rfl
  | cons x xs ih => simp [countInserts, List.filter_cons, isRoleInsert]

theorem countTitleUpd_append (a b : List Eff) :
    countTitleUpd (a ++ b) = countTitleUpd a + countTitleUpd b := by
  simp [countTitleUpd, List.filter_append]

theorem countTitleUpd_enqMap (l : List (List Nat)) :
    countTitleUpd (l.map Eff.enq) = 0 := by
  induction l with
  | nil => rfl
  | cons x xs ih => simp [countTitleUpd, List.filter_cons, isTitleUpd]

/-- The accepted-request trace equation for the streaming tee branch. -/
theorem routeChatTrace_stream_eq (parse : List Char → Option JVal) (req : ChatReq)
    (env : EnvDB) (up : UpstreamRes)
    (h1 : req.chat_id.getD [] ≠ [])
    (h2 : jsTrim (req.content.getD []) ≠ [])
    (h3 : env.chatFound = true)
    (h4 : apiKeyOf req env ≠ [])
    (h5 : streamOf req.stream = true)
    (h6 : (!resOk up.status && up.bodyPresent) = false) :
    routeChatTrace parse req env up =
      (Eff.insertMsg Role.user (jsTrim (req.content.getD []))
        :: Eff.titleUpdate (jsTrim (req.content.getD []))
        :: Eff.upstreamCall (buildMessages env (jsTrim (req.content.getD []))) true
        :: Eff.respond 200
        :: up.chunks.map Eff.enq)
      ++ (if jsTrim (relayCapture parse ⟨[], []⟩ up.chunks).acc = [] then []
          else [Eff.insertMsg Role.assistant (relayCapture parse ⟨[], []⟩ up.chunks).acc])
      ++ [Eff.enq sentinelBytes, Eff.closeStream] := by
  unfold routeChatTrace
  rw [if_neg h1, if_neg h2]
  rw [if_neg (show ¬(!env.chatFound) = true by simp [h3])]
  rw [if_neg h4]
  rw [if_neg (show ¬(!streamOf req.stream) = true by simp [h5])]
  rw [if_neg (by simp [h6])]
  unfold relayTrace
  rw [relayTraceAux_eq]
  unfold relayTraceAux
  simp [h5]

/-- The accepted-request trace equation for the non-streaming branch. -/
theorem routeChatTrace_nonstream_eq (parse : List Char → Option JVal) (req : ChatReq)
    (env : EnvDB) (up : UpstreamRes)
    (h1 : req.chat_id.getD [] ≠ [])
    (h2 : jsTrim (req.content.getD []) ≠ [])
    (h3 : env.chatFound = true)
    (h4 : apiKeyOf req env ≠ [])
    (h5 : streamOf req.stream = false) :
    routeChatTrace parse req env up =
      [Eff.insertMsg Role.user (jsTrim (req.content.getD [])),
       Eff.titleUpdate (jsTrim (req.content.getD [])),
       Eff.upstreamCall (buildMessages env (jsTrim (req.content.getD []))) false]
      ++ (if (match parse (utf8DecodeReplace up.chunks.flatten) with
              | none => []
              | some j => msgContent j) = [] then []
          else [Eff.insertMsg Role.assistant
            (match parse (utf8DecodeReplace up.chunks.flatten) with
             | none => []
             | some j => msgContent j)])
      ++ [Eff.respond up.status] := by
  unfold routeChatTrace
  rw [if_neg h1, if_neg h2]
  rw [if_neg (show ¬(!env.chatFound) = true by simp [h3])]
  rw [if_neg h4]
  rw [if_pos (show (!streamOf req.stream) = true by simp [h5])]
  simp

/-- The accepted-request trace equation for the failed-upstream passthrough
branch. -/
theorem routeChatTrace_errpass_eq (parse : List Char → Option JVal) (req : ChatReq)
    (env : EnvDB) (up : UpstreamRes)
    (h1 : req.chat_id.getD [] ≠ [])
    (h2 : jsTrim (req.content.getD []) ≠ [])
    (h3 : env.chatFound = true)
    (h4 : apiKeyOf req env ≠ [])
    (h5 : streamOf req.stream = true)
    (h6 : (!resOk up.status && up.bodyPresent) = true) :
    routeChatTrace parse req env up =
      [Eff.insertMsg Role.user (jsTrim (req.content.getD [])),
       Eff.titleUpdate (jsTrim (req.content.getD [])),
       Eff.upstreamCall (buildMessages env (jsTrim (req.content.getD []))) true,
       Eff.respond up.status] := by
  unfold routeChatTrace
  rw [if_neg h1, if_neg h2]
  rw [if_neg (show ¬(!env.chatFound) = true by simp [h3])]
  rw [if_neg h4]
  rw [if_neg (show ¬(!streamOf req.stream) = true by simp [h5])]
  rw [if_pos h6]
  simp [h5]

theorem filter_roleInsert_enqMap (r : Role) (l : List (List Nat)) :
    (l.map Eff.enq).filter (isRoleInsert r) = [] := by
  induction l with
  | nil => rfl
  | cons x xs ih => simp [List.filter_cons, isRoleInsert, ih]

theorem filter_titleUpd_enqMap (l : List (List Nat)) :
    (l.map Eff.enq).filter isTitleUpd = [] := by
  induction l with
  | nil => rfl
  | cons x xs ih => simp [List.filter_cons, isTitleUpd, ih]

/-- C4 — Per-request persistence bound: every accepted chat-send performs
exactly one user-message insert, positioned before the upstream call; at most
one assistant-message insert; and on the streaming tee the assistant insert
(present exactly when the accumulated text is non-empty after trimming, and
carrying that accumulated — possibly partial — text) happens only after all
upstream chunks have been enqueued, never during streaming. -/
theorem persistence_bound (parse : List Char → Option JVal) (req : ChatReq) (env : EnvDB)
    (up : UpstreamRes)
    (h1 : req.chat_id.getD [] ≠ [])
    (h2 : jsTrim (req.content.getD []) ≠ [])
    (h3 : env.chatFound = true)
    (h4 : apiKeyOf req env ≠ []) :
    countInserts Role.user (routeChatTrace parse req env up) = 1
    ∧ countInserts Role.assistant (routeChatTrace parse req env up) ≤ 1
    ∧ (∃ tail, routeChatTrace parse req env up =
        Eff.insertMsg Role.user (jsTrim (req.content.getD []))
          :: Eff.titleUpdate (jsTrim (req.content.getD []))
          :: Eff.upstreamCall (buildMessages env (jsTrim (req.content.getD [])))
              (streamOf req.stream)
          :: tail)
    ∧ (streamOf req.stream = true → (!resOk up.status && up.bodyPresent) = false →
        routeChatTrace parse req env up =
          (Eff.insertMsg Role.user (jsTrim (req.content.getD []))
            :: Eff.titleUpdate (jsTrim (req.content.getD []))
            :: Eff.upstreamCall (buildMessages env (jsTrim (req.content.getD []))) true
            :: Eff.respond 200
            :: up.chunks.map Eff.enq)
          ++ (if jsTrim (relayCapture parse ⟨[], []⟩ up.chunks).acc = [] then []
              else [Eff.insertMsg Role.assistant (relayCapture parse ⟨[], []⟩ up.chunks).acc])
          ++ [Eff.enq sentinelBytes, Eff.closeStream]) := by
  cases hstr : streamOf req.stream with
  | false =>
    rw [routeChatTrace_nonstream_eq parse req env up h1 h2 h3 h4 hstr]
    refine ⟨?_, ?_, ?_, ?_⟩
    · by_cases hm : (match parse (utf8DecodeReplace up.chunks.flatten) with
          | none => [] | some j => msgContent j) = [] <;>
        simp [hm, countInserts, List.filter_append, List.filter_cons, isRoleInsert]
    · by_cases hm : (match parse (utf8DecodeReplace up.chunks.flatten) with
          | none => [] | some j => msgContent j) = [] <;>
        simp [hm, countInserts, List.filter_append, List.filter_cons, isRoleInsert]
    · refine ⟨(if (match parse (utf8DecodeReplace up.chunks.flatten) with
          | none => [] | some j => msgContent j) = [] then []
          else [Eff.insertMsg Role.assistant
            (match parse (utf8DecodeReplace up.chunks.flatten) with
             | none => [] | some j => msgContent j)]) ++ [Eff.respond up.status], ?_⟩
      simp
    · intro hcontra
      exact absurd hcontra (by simp)
  | true =>
    cases herr : (!resOk up.status && up.bodyPresent) with
    | true =>
      rw [routeChatTrace_errpass_eq parse req env up h1 h2 h3 h4 hstr herr]
      refine ⟨by simp [countInserts, List.filter_cons, isRoleInsert],
        by simp [countInserts, List.filter_cons, isRoleInsert], ?_, ?_⟩
      · exact ⟨[Eff.respond up.status], rfl⟩
      · intro _ hcontra
        exact absurd hcontra (by simp)
    | false =>
      rw [routeChatTrace_stream_eq parse req env up h1 h2 h3 h4 hstr herr]
      refine ⟨?_, ?_, ?_, ?_⟩
      · by_cases hm : jsTrim (relayCapture parse ⟨[], []⟩ up.chunks).acc = [] <;>
          simp [hm, countInserts, List.filter_append, List.filter_cons, isRoleInsert,
            filter_roleInsert_enqMap]
      · by_cases hm : jsTrim (relayCapture parse ⟨[], []⟩ up.chunks).acc = [] <;>
          simp [hm, countInserts, List.filter_append, List.filter_cons, isRoleInsert,
            filter_roleInsert_enqMap]
      · refine ⟨Eff.respond 200 :: (up.chunks.map Eff.enq
            ++ (if jsTrim (relayCapture parse ⟨[], []⟩ up.chunks).acc = [] then []
                else [Eff.insertMsg Role.assistant
                  (relayCapture parse ⟨[], []⟩ up.chunks).acc])
            ++ [Eff.enq sentinelBytes, Eff.closeStream]), ?_⟩
        simp
      · intro _ _
        rfl

/-- Witness for C4 at a concrete accepted streaming request. -/
theorem persistence_bound_witness :
    (rqA.chat_id.getD [] ≠ []) ∧ (jsTrim (rqA.content.getD []) ≠ [])
    ∧ (envOk.chatFound = true) ∧ (apiKeyOf rqA envOk ≠ [])
    ∧ countInserts Role.user (routeChatTrace wParse rqA envOk upW) = 1
    ∧ countInserts Role.assistant (routeChatTrace wParse rqA envOk upW) ≤ 1 :=
  ⟨by decide, by decide, rfl, by decide,
   (persistence_bound wParse rqA envOk upW (by decide) (by decide) rfl (by decide)).1,
   (persistence_bound wParse rqA envOk upW (by decide) (by decide) rfl (by decide)).2.1⟩

/-- The trace equation for the missing-credential branch: validation passed,
the user insert and title update already happened, then 401. -/
theorem routeChatTrace_401_eq (parse : List Char → Option JVal) (req : ChatReq) (env : EnvDB)
    (up : UpstreamRes)
    (h1 : req.chat_id.getD [] ≠ [])
    (h2 : jsTrim (req.content.getD []) ≠ [])
    (h3 : env.chatFound = true)
    (h4 : apiKeyOf req env = []) :
    routeChatTrace parse req env up =
      [Eff.insertMsg Role.user (jsTrim (req.content.getD [])),
       Eff.titleUpdate (jsTrim (req.content.getD [])),
       Eff.respond 401] := by
  unfold routeChatTrace
  rw [if_neg h1, if_neg h2]
  rw [if_neg (show ¬(!env.chatFound) = true by simp [h3])]
  rw [if_pos h4]
  rfl

/-- C5 counterexample — the claim is false as stated: with no bearer token
and no configured key, the relay does reject with 401 and makes no upstream
call, but the user-message insert (and the title update) have already
happened before the credential check — the claim asserts no persistence
write occurs. -/
theorem credential_reject_cx :
    apiKeyOf rqA envNoKey = []
    ∧ routeChatTrace noParse rqA envNoKey upW =
        [Eff.insertMsg Role.user "hi".toList, Eff.titleUpdate "hi".toList, Eff.respond 401]
    ∧ Eff.insertMsg Role.user "hi".toList ∈ routeChatTrace noParse rqA envNoKey upW := by
  refine ⟨rfl, by decide, by decide⟩

/-- C5 (amended) — Credential rejection before the upstream call: when the
upstream credential is absent the relay responds 401 (distinct from the
validation statuses 400/404), makes no upstream call and writes no assistant
message; the user-message insert and the title update, however, have already
been performed before the credential check. -/
theorem credential_reject (parse : List Char → Option JVal) (req : ChatReq) (env : EnvDB)
    (up : UpstreamRes)
    (h1 : req.chat_id.getD [] ≠ [])
    (h2 : jsTrim (req.content.getD []) ≠ [])
    (h3 : env.chatFound = true)
    (h4 : apiKeyOf req env = []) :
    routeChatTrace parse req env up =
      [Eff.insertMsg Role.user (jsTrim (req.content.getD [])),
       Eff.titleUpdate (jsTrim (req.content.getD [])),
       Eff.respond 401]
    ∧ (∀ m f, Eff.upstreamCall m f ∉ routeChatTrace parse req env up)
    ∧ (∀ c, Eff.insertMsg Role.assistant c ∉ routeChatTrace parse req env up)
    ∧ (401 : Nat) ≠ 400 ∧ (401 : Nat) ≠ 404 := by
  have htr := routeChatTrace_401_eq parse req env up h1 h2 h3 h4
  refine ⟨htr, ?_, ?_, by decide, by decide⟩
  · intro m f
    rw [htr]
    simp
  · intro c
    rw [htr]
    simp

/-- Witness for C5 (amended) at the concrete credential-less request. -/
theorem credential_reject_witness :
    (rqA.chat_id.getD [] ≠ []) ∧ (jsTrim (rqA.content.getD []) ≠ [])
    ∧ (envNoKey.chatFound = true) ∧ (apiKeyOf rqA envNoKey = [])
    ∧ routeChatTrace noParse rqA envNoKey upW =
        [Eff.insertMsg Role.user (jsTrim (rqA.content.getD [])),
         Eff.titleUpdate (jsTrim (rqA.content.getD [])),
         Eff.respond 401] :=
  ⟨by decide, by decide, rfl, rfl,
   (credential_reject noParse rqA envNoKey upW (by decide) (by decide) rfl rfl).1⟩

/-- C6 counterexample — the claim is false as stated: with 31 stored
messages, the messages array actually sent upstream is the system prompt
plus only the last 30 rows (`history.slice(-30)`), not the full stored
conversation history with the new user message. -/
theorem history_forwarded_cx :
    Eff.upstreamCall (buildMessages env31 "hi".toList) true
        ∈ routeChatTrace noParse rqA env31 upEmpty
    ∧ buildMessages env31 "hi".toList ≠
        (Role.system, SYS_PROMPT) :: (env31.stored ++ [(Role.user, "hi".toList)]) := by
  refine ⟨by decide, by decide⟩

/-- C6 (amended) — History forwarding: for every accepted chat-send the
upstream call carries the system prompt followed by the last 30 entries of
the first 1000 (by `created_at` ascending) stored messages including the
just-inserted user message, with the request's streaming flag. -/
theorem history_forwarded (parse : List Char → Option JVal) (req : ChatReq) (env : EnvDB)
    (up : UpstreamRes)
    (h1 : req.chat_id.getD [] ≠ [])
    (h2 : jsTrim (req.content.getD []) ≠ [])
    (h3 : env.chatFound = true)
    (h4 : apiKeyOf req env ≠ []) :
    (∃ tail, routeChatTrace parse req env up =
      Eff.insertMsg Role.user (jsTrim (req.content.getD []))
        :: Eff.titleUpdate (jsTrim (req.content.getD []))
        :: Eff.upstreamCall (buildMessages env (jsTrim (req.content.getD [])))
            (streamOf req.stream)
        :: tail)
    ∧ buildMessages env (jsTrim (req.content.getD [])) =
        (Role.system, SYS_PROMPT)
          :: sliceLast30 ((env.stored ++ [(Role.user, jsTrim (req.content.getD []))]).take 1000) := by
  refine ⟨?_, rfl⟩
  cases hstr : streamOf req.stream with
  | false =>
    rw [routeChatTrace_nonstream_eq parse req env up h1 h2 h3 h4 hstr]
    refine ⟨(if (match parse (utf8DecodeReplace up.chunks.flatten) with
        | none => [] | some j => msgContent j) = [] then []
        else [Eff.insertMsg Role.assistant
          (match parse (utf8DecodeReplace up.chunks.flatten) with
           | none => [] | some j => msgContent j)]) ++ [Eff.respond up.status], ?_⟩
    simp
  | true =>
    cases herr : (!resOk up.status && up.bodyPresent) with
    | true =>
      rw [routeChatTrace_errpass_eq parse req env up h1 h2 h3 h4 hstr herr]
      exact ⟨[Eff.respond up.status], rfl⟩
    | false =>
      rw [routeChatTrace_stream_eq parse req env up h1 h2 h3 h4 hstr herr]
      refine ⟨Eff.respond 200 :: (up.chunks.map Eff.enq
          ++ (if jsTrim (relayCapture parse ⟨[], []⟩ up.chunks).acc = [] then []
              else [Eff.insertMsg Role.assistant
                (relayCapture parse ⟨[], []⟩ up.chunks).acc])
          ++ [Eff.enq sentinelBytes, Eff.closeStream]), ?_⟩
      simp

/-- Witness for C6 (amended) at a concrete accepted request with one stored
message. -/
theorem history_forwarded_witness :
    (rqA.chat_id.getD [] ≠ []) ∧ (jsTrim (rqA.content.getD []) ≠ [])
    ∧ (envOk.chatFound = true) ∧ (apiKeyOf rqA envOk ≠ [])
    ∧ buildMessages envOk (jsTrim (rqA.content.getD [])) =
        [(Role.system, SYS_PROMPT), (Role.user, "hi".toList)] :=
  ⟨by decide, by decide, rfl, by decide, by
    rw [(history_forwarded noParse rqA envOk upEmpty (by decide) (by decide) rfl
      (by decide)).2]
    decide⟩

/-- C9 — Streaming is the default: the relay takes the non-streaming path
exactly when the request body's `stream` field is the JSON literal `false`;
an absent field or any other value selects streaming
(`body?.stream !== false`). -/
theorem streaming_default (s : Option JVal) :
    streamOf s = true ↔ s ≠ some (JVal.bool false) := by
  cases s with
  | none => simp [streamOf]
  | some j =>
    cases j with
    | null => simp [streamOf]
    | bool b => cases b <;> simp [streamOf]
    | num n => simp [streamOf]
    | str t => simp [streamOf]
    | arr xs => simp [streamOf]
    | obj fs => simp [streamOf]

/-- C10 — Title side effect on every send: every request that passes
validation performs exactly one chat-title update attempt, right after the
user-message insert; the update sets a null or empty title to the first 48
characters of the trimmed user text and leaves a non-empty title unchanged;
no other chat-row effect appears in the trace. -/
theorem title_update_on_send (parse : List Char → Option JVal) (req : ChatReq) (env : EnvDB)
    (up : UpstreamRes)
    (h1 : req.chat_id.getD [] ≠ [])
    (h2 : jsTrim (req.content.getD []) ≠ [])
    (h3 : env.chatFound = true) :
    countTitleUpd (routeChatTrace parse req env up) = 1
    ∧ (∃ tail, routeChatTrace parse req env up =
        Eff.insertMsg Role.user (jsTrim (req.content.getD []))
          :: Eff.titleUpdate (jsTrim (req.content.getD [])) :: tail)
    ∧ (∀ old : Option (List Char), old = none ∨ old = some [] →
        updateChatTitleIfEmpty old (jsTrim (req.content.getD []))
          = some ((jsTrim (jsTrim (req.content.getD []))).take 48))
    ∧ (∀ old : Option (List Char), old ≠ none → old ≠ some [] →
        updateChatTitleIfEmpty old (jsTrim (req.content.getD [])) = old) := by
  have hshape : ∃ tail, routeChatTrace parse req env up =
      Eff.insertMsg Role.user (jsTrim (req.content.getD []))
        :: Eff.titleUpdate (jsTrim (req.content.getD [])) :: tail
      ∧ countTitleUpd tail = 0 := by
    by_cases hk : apiKeyOf req env = []
    · rw [routeChatTrace_401_eq parse req env up h1 h2 h3 hk]
      exact ⟨[Eff.respond 401], rfl, rfl⟩
    · cases hstr : streamOf req.stream with
      | false =>
        rw [routeChatTrace_nonstream_eq parse req env up h1 h2 h3 hk hstr]
        refine ⟨Eff.upstreamCall (buildMessages env (jsTrim (req.content.getD []))) false
            :: ((if (match parse (utf8DecodeReplace up.chunks.flatten) with
                | none => [] | some j => msgContent j) = [] then []
                else [Eff.insertMsg Role.assistant
                  (match parse (utf8DecodeReplace up.chunks.flatten) with
                   | none => [] | some j => msgContent j)]) ++ [Eff.respond up.status]),
          by simp, ?_⟩
        by_cases hm : (match parse (utf8DecodeReplace up.chunks.flatten) with
            | none => [] | some j => msgContent j) = [] <;>
          simp [hm, countTitleUpd, List.filter_cons, List.filter_append, isTitleUpd]
      | true =>
        cases herr : (!resOk up.status && up.bodyPresent) with
        | true =>
          rw [routeChatTrace_errpass_eq parse req env up h1 h2 h3 hk hstr herr]
          exact ⟨[Eff.upstreamCall (buildMessages env (jsTrim (req.content.getD []))) true,
            Eff.respond up.status], rfl, rfl⟩
        | false =>
          rw [routeChatTrace_stream_eq parse req env up h1 h2 h3 hk hstr herr]
          refine ⟨Eff.upstreamCall (buildMessages env (jsTrim (req.content.getD []))) true
              :: Eff.respond 200 :: (up.chunks.map Eff.enq
              ++ (if jsTrim (relayCapture parse ⟨[], []⟩ up.chunks).acc = [] then []
                  else [Eff.insertMsg Role.assistant
                    (relayCapture parse ⟨[], []⟩ up.chunks).acc])
              ++ [Eff.enq sentinelBytes, Eff.closeStream]), by simp, ?_⟩
          by_cases hm : jsTrim (relayCapture parse ⟨[], []⟩ up.chunks).acc = [] <;>
            simp [hm, countTitleUpd, List.filter_cons, List.filter_append, isTitleUpd,
              filter_titleUpd_enqMap]
  obtain ⟨tail, htr, hcnt⟩ := hshape
  refine ⟨?_, ⟨tail, htr⟩, ?_, ?_⟩
  · rw [htr]
    simp only [countTitleUpd, List.filter_cons, isTitleUpd] at hcnt ⊢
    simp [hcnt]
  · intro old hor
    unfold updateChatTitleIfEmpty
    rw [if_pos hor]
  · intro old hn hs
    unfold updateChatTitleIfEmpty
    rw [if_neg]
    rintro (h | h)
    · exact hn h
    · exact hs h

/-- Witness for C10 at a concrete request: empty and non-empty existing
titles. -/
theorem title_update_on_send_witness :
    (rqA.chat_id.getD [] ≠ []) ∧ (jsTrim (rqA.content.getD []) ≠ [])
    ∧ (envOk.chatFound = true)
    ∧ countTitleUpd (routeChatTrace noParse rqA envOk upEmpty) = 1
    ∧ updateChatTitleIfEmpty none "hi".toList = some "hi".toList
    ∧ updateChatTitleIfEmpty (some "T".toList) "hi".toList = some "T".toList :=
  ⟨by decide, by decide, rfl,
   (title_update_on_send noParse rqA envOk upEmpty (by decide) (by decide) rfl).1,
   by decide, by decide⟩

/-- A frame recognised as the persistence-complete signal contributes no
display text: the `__stored` branch sets the flag and `continue`s. -/
theorem consStored_no_delta (parse : List Char → Option JVal) (f : List Char) :
    consFrameStored parse f = true → consFrameDelta parse f = [] := by
  unfold consFrameStored consFrameDelta consEvent
  split
  · simp
  · dsimp only
    split
    · simp
    · split
      · simp
      · split
        · simp
        · split <;> simp

/-- C7 — Consumer sentinel reconciliation: over any chunking of a
well-formed framed stream, the consumer records storage as confirmed exactly
when some frame carries the relay's persistence-complete signal; such frames
contribute no display text; and when the read loop ends the consumer
immediately re-fetches the authoritative conversation when storage was
confirmed, and otherwise schedules the short delayed, failure-tolerant
re-fetch — followed in both cases by the chat-list refresh. -/
theorem consumer_sentinel (parse : List Char → Option JVal)
    (frames chunks : List (List Char))
    (hjoin : chunks.flatten = (frames.map (fun f => f ++ ['\n', '\n'])).flatten)
    (hwf : ∀ f ∈ frames, wfFrame f = true) :
    (consRun parse chunks).acc.stored = frames.any (consFrameStored parse)
    ∧ (∀ f ∈ frames, consFrameStored parse f = true → consFrameDelta parse f = [])
    ∧ consTrace parse chunks =
        (if frames.any (consFrameStored parse) then [CAct.fetchConv] else [CAct.delayedFetch])
          ++ [CAct.refreshList] := by
  have hrun : (consRun parse chunks).acc.stored = frames.any (consFrameStored parse) := by
    unfold consRun
    rw [sseRun_flatten, hjoin]
    unfold sseStep
    simp only [List.nil_append]
    rw [sseSplit_joined_frames frames hwf]
    simp only
    rw [foldl_consEvent]
    simp
  refine ⟨hrun, fun f _ h => consStored_no_delta parse f h, ?_⟩
  unfold consTrace
  rw [hrun]

/-- Witness for C7: with the sentinel present the trace is the immediate
fetch; without it, the delayed tolerant fetch. -/
theorem consumer_sentinel_witness :
    (chunks7.flatten = (frames7.map (fun f => f ++ ['\n', '\n'])).flatten
      ∧ (∀ f ∈ frames7, wfFrame f = true))
    ∧ (consRun c7Parse chunks7).acc.stored = frames7.any (consFrameStored c7Parse)
    ∧ consTrace c7Parse chunks7 = [CAct.fetchConv, CAct.refreshList]
    ∧ (consRun c7Parse chunks7).acc.full = "Hel".toList
    ∧ consTrace c7Parse [wStream] = [CAct.delayedFetch, CAct.refreshList] :=
  ⟨⟨by decide, by decide⟩,
   (consumer_sentinel c7Parse frames7 chunks7 (by decide) (by decide)).1,
   by decide, by decide, by decide⟩
